import Mathlib

set_option maxRecDepth 40000

/-
  Verification development for the M&A health-index forecasting core
  (ma_health_forecast): a shallow embedding, over ℚ and lists, of
  - the shock mapping `apply_simulation_logic` (app.py),
  - the scenario propagation `calculate_scenario_forecast` (app.py),
  - the rolling 0-100 rescale `scale_0_100` (src/index/ma_index.py),
  - the signal normalisation `normalize_series` (src/features/normalize.py)
    and the direction flip in `build_index` (src/index/ma_index.py),
  - the VAR order selection / forecast wrapper `forecast_with_var`
    (src/forecast/var_forecast.py), and
  - the orchestration in `get_cached_data` / `generate_dashboard_data` (app.py).
  Python floats are modelled as ℚ, NaN as `Option.none`, Python strings as
  `List Char` (so that case folding computes), pandas Series as Lists.
-/

namespace MAHF

/-- Python strings, modelled as character lists (ASCII data in this code base). -/
abbrev PyStr := List Char

/-- Python `str.lower()` (ASCII; the identifiers involved are ASCII). -/
def pyLower (s : PyStr) : PyStr := s.map Char.toLower

/-- Python `s.replace("bkt_", "")`: remove every (left-to-right, non-overlapping)
occurrence of the four characters `bkt_`, as `calculate_scenario_forecast` does
to an already lower-cased key. -/
def stripBkt : PyStr → PyStr
  | 'b' :: 'k' :: 't' :: '_' :: rest => stripBkt rest
  | c :: rest => c :: stripBkt rest
  | [] => []

/-- Whether `pat` is an initial segment of `l` (helper for substring tests). -/
def leadSeg : PyStr → PyStr → Bool
  | [], _ => true
  | _ :: _, [] => false
  | p :: ps, c :: cs => p == c && leadSeg ps cs

/-- Python `pat in s` on strings: some occurrence of `pat` inside `s`. -/
def pyContains (s pat : PyStr) : Bool :=
  match s with
  | [] => pat.isEmpty
  | _ :: rest => leadSeg pat s || pyContains rest pat

/-- A value arriving in one of the three simulation dials. `asFloat` is the
outcome of Python's `float(x)` (`some q` when the conversion succeeds, `none`
when it raises); `strVal` is the string itself when the value is a `str`
(`none` for non-string values), as tested by `isinstance(x, str)`. -/
structure DialValue where
  asFloat : Option ℚ
  strVal : Option PyStr

/-- The rate dial coercion of `apply_simulation_logic`: `float(rate_change)`
with a bare fallback to `0.0`. -/
def coerceRate (d : DialValue) : ℚ := d.asFloat.getD 0

/-- The confidence dial coercion of `apply_simulation_logic`: `float(...)`
first; on failure, keyword matching on strings (`Bear` ↦ −20, `Bull` ↦ +20,
otherwise 0); non-strings fall back to 0. -/
def coerceConfidence (d : DialValue) : ℚ :=
  match d.asFloat with
  | some v => v
  | none =>
    match d.strVal with
    | some s =>
      if pyContains s ("Bear".toList) then -20
      else if pyContains s ("Bull".toList) then 20
      else 0
    | none => 0

/-- The volatility dial coercion of `apply_simulation_logic`: `float(...)`
first; on failure, keyword matching on strings (`High` ↦ 10, `Low` ↦ −5,
otherwise 0); non-strings fall back to 0. -/
def coerceVolatility (d : DialValue) : ℚ :=
  match d.asFloat with
  | some v => v
  | none =>
    match d.strVal with
    | some s =>
      if pyContains s ("High".toList) then 10
      else if pyContains s ("Low".toList) then -5
      else 0
    | none => 0

/-- The per-bucket shock dictionary built by `apply_simulation_logic`
(`shocks["BKT_Credit"]` and so on), as a record. -/
structure Shocks where
  credit : ℚ
  sentiment : ℚ
  valuation : ℚ
  volatility : ℚ
  liquidity : ℚ
deriving DecidableEq

/-- `apply_simulation_logic(rate_change, confidence_shock, volatility_shock)`
from app.py: coerce the three dials, form
`rate_impact = -1 * (r_chg / 100.0) * 15.0`,
`conf_impact = (c_val / 20.0) * 20.0`,
`vol_impact = -1 * (v_val / 10.0) * 15.0`,
and combine them into the five bucket shocks. -/
def apply_simulation_logic (rate conf vol : DialValue) : Shocks :=
  let rateImpact : ℚ := -1 * (coerceRate rate / 100) * 15
  let confImpact : ℚ := (coerceConfidence conf / 20) * 20
  let volImpact : ℚ := -1 * (coerceVolatility vol / 10) * 15
  { credit := rateImpact + (volImpact * 0.5)
    sentiment := confImpact + (volImpact * 0.2)
    valuation := rateImpact
    volatility := volImpact
    liquidity := rateImpact + (confImpact * 0.3) }

/-- The shock dictionary in its Python insertion order, with its
capitalised `BKT_` keys, as iterated by `calculate_scenario_forecast`. -/
def shocksList (s : Shocks) : List (PyStr × ℚ) :=
  [(("BKT_Credit".toList), s.credit),
   (("BKT_Sentiment".toList), s.sentiment),
   (("BKT_Valuation".toList), s.valuation),
   (("BKT_Volatility".toList), s.volatility),
   (("BKT_Liquidity".toList), s.liquidity)]

/-- The last `n` entries of a list (`iloc[-n:]`, and the trailing rolling
window). -/
def lastN (n : Nat) (l : List α) : List α := l.drop (l.length - n)

/-- One entry of `scale_0_100` from src/index/ma_index.py: at position `t`,
the rolling window is the last `window_months` observations up to and
including `t`; with fewer than the hard-coded `min_periods=60` observations
the rolling min/max are NaN (`none`); when the window max equals the window
min the quotient is NaN (`0/0` in pandas, the window contains `x[t]`);
otherwise `100 * (x - rolling_min) / (rolling_max - rolling_min)`. -/
def scaleEntry (x : List ℚ) (windowMonths : Nat) (t : Nat) : Option ℚ :=
  let win := lastN windowMonths (x.take (t + 1))
  if win.length < 60 then none
  else
    let m := win.foldl min (win.getD 0 0)
    let M := win.foldl max (win.getD 0 0)
    if M = m then none
    else some (100 * (x.getD t 0 - m) / (M - m))

/-- `scale_0_100(x, window_months, neutral)` from src/index/ma_index.py:
`100 * (x - rolling_min) / (rolling_max - rolling_min)` with window
`window_months` and `min_periods=60`, written per index.  The `neutral`
parameter is accepted and unused, exactly as in the source. -/
def scale_0_100 (x : List ℚ) (windowMonths : Nat) (neutral : ℚ := 50) :
    List (Option ℚ) :=
  (List.range x.length).map (scaleEntry x windowMonths)

/-- The baseline-forecast assembly of `generate_dashboard_data` (app.py):
concatenate the historical raw composite with the forecast raw composite,
rescale the concatenation with the imported `scale_0_100`, and slice the
last 12 rescaled values (`combined_scaled.iloc[-12:]`). -/
def baselineForecast (historyRaw forecastRaw : List ℚ) (windowMonths : Nat) :
    List (Option ℚ) :=
  let combinedRaw := historyRaw ++ forecastRaw
  let combinedScaled := scale_0_100 combinedRaw windowMonths
  lastN 12 combinedScaled

/-- Numpy `cumsum`, with a running accumulator. -/
def cumsumFrom (acc : ℚ) : List ℚ → List ℚ
  | [] => []
  | y :: ys => (acc + y) :: cumsumFrom (acc + y) ys

/-- `np.cumsum` on a vector of rationals. -/
def cumsum (l : List ℚ) : List ℚ := cumsumFrom 0 l

/-- Entry `orth_irfs[s, i, idx]` of the orthogonalized impulse-response
tensor produced by `var_results.irf(periods=12)` (axes: step, responding
variable, shocked variable); out-of-range reads default to 0, the tensor
produced by statsmodels always has 13 steps and square variable axes. -/
def irfAt (orthIrfs : List (List (List ℚ))) (s i idx : Nat) : ℚ :=
  ((orthIrfs.getD s []).getD i []).getD idx 0

/-- The weight lookup of `calculate_scenario_forecast`'s inner loop:
`weights[col_name]` if present, else `weights["BKT_" + col_name]` if
present, else `0.0`. -/
def weightOf (weights : List (PyStr × ℚ)) (colName : PyStr) : ℚ :=
  match weights.lookup colName with
  | some w => w
  | none =>
    match weights.lookup (("BKT_".toList) ++ colName) with
    | some w => w
    | none => 0

/-- The naming-mismatch handling of `calculate_scenario_forecast`:
lower-case the bucket-order names and the shock key; look the key up as is,
then with every `bkt_` occurrence stripped; `none` when neither matches
(the shock is skipped). `List.indexOf` is Python's `list.index` (first
occurrence). -/
def shockIndexOf (bucketName : PyStr) (bucketOrder : List PyStr) : Option Nat :=
  let bucketOrderNorm := bucketOrder.map pyLower
  let keyNorm := pyLower bucketName
  if keyNorm ∈ bucketOrderNorm then some (bucketOrderNorm.indexOf keyNorm)
  else if stripBkt keyNorm ∈ bucketOrderNorm then
    some (bucketOrderNorm.indexOf (stripBkt keyNorm))
  else none

/-- The per-shock 13vector accumulated by `calculate_scenario_forecast`'s
inner loop: `weighted_impact[s] = Σ_i orth_irfs[s, i, idx] * magnitude * w_i`,
the weight-sum over responding buckets of the magnitude-scaled response
matrix column (`scaled_impact_matrix = response_matrix * magnitude`, then
`weighted_impact += scaled_impact_matrix[:, i] * w`). -/
def bucketContrib (orthIrfs : List (List (List ℚ))) (bucketOrder : List PyStr)
    (weights : List (PyStr × ℚ)) (magnitude : ℚ) (idx : Nat) : List ℚ :=
  (List.range 13).map fun s =>
    ((List.range bucketOrder.length).map fun i =>
      irfAt orthIrfs s i idx * magnitude *
        weightOf weights (bucketOrder.getD i [])).sum

/-- One iteration of `calculate_scenario_forecast`'s shock loop: a zero
magnitude is skipped (`continue`), an unmatched key is skipped
(`continue`), otherwise the weighted impact vector is added onto
`total_impact`. -/
def shockStep (orthIrfs : List (List (List ℚ))) (bucketOrder : List PyStr)
    (weights : List (PyStr × ℚ)) (acc : List ℚ) (p : PyStr × ℚ) : List ℚ :=
  if p.2 = 0 then acc
  else
    match shockIndexOf p.1 bucketOrder with
    | none => acc
    | some idx =>
      List.zipWith (· + ·) acc (bucketContrib orthIrfs bucketOrder weights p.2 idx)

/-- `calculate_scenario_forecast(var_results, baseline_forecast_df, shocks,
bucket_order, weights)` from app.py, with the impulse-response tensor
`orth_irfs` of `var_results.irf(periods=12)` passed in: accumulate
`total_impact` (a zeros(13) start) over the shock dictionary, take
`np.cumsum`, align away step 0 (`cumulative_impact[1:13]` when longer than
12, `[:12]` otherwise), and add the aligned impact onto the baseline values
(whose NaN entries stay NaN under numpy addition). -/
def calculate_scenario_forecast (orthIrfs : List (List (List ℚ)))
    (baselineForecastDf : List (Option ℚ)) (shocks : List (PyStr × ℚ))
    (bucketOrder : List PyStr) (weights : List (PyStr × ℚ)) : List (Option ℚ) :=
  let totalImpact :=
    shocks.foldl (shockStep orthIrfs bucketOrder weights) (List.replicate 13 0)
  let cumulativeImpact := cumsum totalImpact
  let alignedImpact :=
    if 12 < cumulativeImpact.length then (cumulativeImpact.drop 1).take 12
    else cumulativeImpact.take 12
  List.zipWith (fun b a => b.map (· + a)) baselineForecastDf alignedImpact

/-- The impact that §4.5 of the specification ascribes to step `s`, written
from the spec's words for comparison with `calculate_scenario_forecast`:
for each bucket with nonzero shock magnitude that maps to a forecaster
column, take its column of the impulse-response tensor, multiply by the
magnitude, weight-sum across responding buckets with the composite-index
weights, and sum these per-step scalars across all shocked buckets. -/
def specStepImpact (orthIrfs : List (List (List ℚ))) (shocks : List (PyStr × ℚ))
    (bucketOrder : List PyStr) (weights : List (PyStr × ℚ)) (s : Nat) : ℚ :=
  (shocks.map fun p =>
    if p.2 = 0 then 0
    else
      match shockIndexOf p.1 bucketOrder with
      | none => 0
      | some idx =>
        ((List.range bucketOrder.length).map fun i =>
          irfAt orthIrfs s i idx * p.2 *
            weightOf weights (bucketOrder.getD i [])).sum).sum

/-- The `window` argument of `normalize_series`: the string `"expanding"`
or a fixed number of periods. -/
inductive NormWindow where
  | expanding
  | fixed (n : Nat)

/-- `winsorize_z(z, clip)` from src/features/normalize.py:
`z.clip(lower=-clip, upper=clip)`, elementwise, NaN (`none`) preserved. -/
def winsorize_z (z : List (Option ℚ)) (clip : ℚ) : List (Option ℚ) :=
  z.map (Option.map fun v => min clip (max (-clip) v))

/-- `zscore_expanding(x)` from src/features/normalize.py:
`(x - expanding(24).mean()) / expanding(24).std(ddof=0)`, per index,
over a fully observed series. With fewer than `min_periods=24`
observations the statistics are NaN; a zero population standard deviation
makes the window constant, so the quotient is `0.0/0.0` = NaN (`none`).
The square root of the (float) variance is modelled by an arbitrary
function `sqrtFn`, on which nothing proved here depends. -/
def zscore_expanding (sqrtFn : ℚ → ℚ) (x : List ℚ) : List (Option ℚ) :=
  (List.range x.length).map fun t =>
    if t + 1 < 24 then none
    else
      let win := x.take (t + 1)
      let mu := win.sum / (t + 1 : ℚ)
      let sigma2 := (win.map fun v => (v - mu) ^ 2).sum / (t + 1 : ℚ)
      if sigma2 = 0 then none
      else some ((x.getD t 0 - mu) / sqrtFn sigma2)

/-- The rolling branch of the zscore method in `normalize_series`:
`(x - x.rolling(window).mean()) / x.rolling(window).std(ddof=0)`
(default `min_periods = window`). -/
def zscoreRolling (sqrtFn : ℚ → ℚ) (x : List ℚ) (n : Nat) : List (Option ℚ) :=
  (List.range x.length).map fun t =>
    if t + 1 < n then none
    else
      let win := lastN n (x.take (t + 1))
      let mu := win.sum / (n : ℚ)
      let sigma2 := (win.map fun v => (v - mu) ^ 2).sum / (n : ℚ)
      if sigma2 = 0 then none
      else some ((x.getD t 0 - mu) / sqrtFn sigma2)

/-- The minmax branch of `normalize_series`: `(x - minv) / (maxv - minv)`
with expanding (`min_periods=24`) or rolling (`min_periods = window`)
min and max; a constant window gives `0.0/0.0` = NaN (`none`). -/
def minmaxScore (x : List ℚ) (window : NormWindow) : List (Option ℚ) :=
  (List.range x.length).map fun t =>
    let minPeriods := match window with | .expanding => 24 | .fixed n => n
    let win := match window with
      | .expanding => x.take (t + 1)
      | .fixed n => lastN n (x.take (t + 1))
    if t + 1 < minPeriods then none
    else
      let minv := win.foldl min (win.getD 0 0)
      let maxv := win.foldl max (win.getD 0 0)
      if maxv = minv then none
      else some ((x.getD t 0 - minv) / (maxv - minv))

/-- `normalize_series(x, method, window, clip_z)` from
src/features/normalize.py: zscore (expanding or rolling, then winsorized
at `clip_z`), or minmax, or `ValueError` for an unknown method. -/
def normalize_series (sqrtFn : ℚ → ℚ) (x : List ℚ) (method : String)
    (window : NormWindow) (clipZ : ℚ) : Except String (List (Option ℚ)) :=
  if method = "zscore" then
    let z := match window with
      | .expanding => zscore_expanding sqrtFn x
      | .fixed n => zscoreRolling sqrtFn x n
    .ok (winsorize_z z clipZ)
  else if method = "minmax" then
    .ok (minmaxScore x window)
  else .error ("Unknown normalize method")

/-- The per-signal step of `build_index` (src/index/ma_index.py, the loop
body after resampling): `ser_n = normalize_series(ser, method, window,
clip_z)` followed by `if direction == "negative": ser_n = ser_n * -1`.
The sign flip happens after scoring. -/
def processSignal (sqrtFn : ℚ → ℚ) (x : List ℚ) (method : String)
    (window : NormWindow) (clipZ : ℚ) (direction : String) :
    Except String (List (Option ℚ)) :=
  match normalize_series sqrtFn x method window clipZ with
  | .error e => .error e
  | .ok serN =>
    .ok (if direction = "negative" then serN.map (Option.map fun v => v * -1)
         else serN)

/-- Modelled from the spec: the fitted coefficients of a VAR(p) model as
statsmodels returns them from `model.fit(optimal_lag)` — an intercept and
one k×k matrix per lag. The fitting itself (ordinary least squares inside
statsmodels) is outside src/; §4.4 only requires that the fitted model,
once obtained, forecasts deterministically from the last `order`
observations. -/
structure VarCoeffs where
  intercept : List ℚ
  lagMatrices : List (List (List ℚ))

/-- Dot product of two coefficient rows (trailing entries of the longer
vector are ignored, all vectors involved have the same width k). -/
def dotQ (a b : List ℚ) : ℚ := (List.zipWith (· * ·) a b).sum

/-- Matrix-vector product over ℚ lists. -/
def matVec (A : List (List ℚ)) (v : List ℚ) : List ℚ := A.map fun row => dotQ row v

/-- Modelled from the spec: one deterministic VAR step,
`y_t = intercept + Σ_i A_i · y_{t-i}`, with `recent` holding the most
recent observation first; only the first `p = lagMatrices.length` entries
of `recent` enter (the zip truncates). -/
def varStep (c : VarCoeffs) (recent : List (List ℚ)) : List ℚ :=
  (List.zipWith (fun A y => matVec A y) c.lagMatrices recent).foldl
    (fun acc v => List.zipWith (· + ·) acc v) c.intercept

/-- Modelled from the spec: `var_results.forecast(y=lagged_values, steps)`
— step the VAR recursion forward deterministically, feeding each new row
back in front of the seed. -/
def varForecast (c : VarCoeffs) (recent : List (List ℚ)) : Nat → List (List ℚ)
  | 0 => []
  | n + 1 =>
    let y := varStep c recent
    y :: varForecast c (y :: recent) n

/-- Modelled from the spec: `model.select_order(maxlags=12)` evaluates the
Akaike Information Criterion for every candidate order `0..12` and its
`.aic` attribute is the order whose AIC is smallest (numpy argmin: the
first minimiser).  The candidate AIC table `aics` (one entry per candidate
order) is the input here, the statsmodels computation of the AIC values
being outside src/. -/
def argminAIC (aics : List ℚ) : Nat :=
  aics.indexOf (aics.foldl min (aics.getD 0 0))

/-- The order-selection step of `forecast_with_var`
(src/forecast/var_forecast.py): `optimal_lag = model.select_order(
maxlags=12).aic` inside `try`, with `optimal_lag = 4` on any exception
(the warning is printed and selection failure is not fatal).  `aics` is
`some` of the candidate AIC table when `select_order` succeeds and `none`
when it raises. -/
def optimalLag (aics : Option (List ℚ)) : Nat :=
  match aics with
  | some l => argminAIC l
  | none => 4

/-- `forecast_with_var(bucket_scores, steps)` from
src/forecast/var_forecast.py: pick the lag (AIC or the fallback 4), fit
(the fitted coefficients come from statsmodels through `fit`), seed the
forecast with the last `optimal_lag` rows of the input
(`bucket_scores.values[-optimal_lag:]`), forecast `steps` rows, and append
the derived column `forecast_df["Composite_Index"] =
forecast_df.sum(axis=1)` to each row. -/
def forecast_with_var (bucketScores : List (List ℚ)) (steps : Nat)
    (aics : Option (List ℚ)) (fit : Nat → VarCoeffs) : List (List ℚ) :=
  let lag := optimalLag aics
  let coeffs := fit lag
  let laggedValues := (lastN lag bucketScores).reverse
  let forecast := varForecast coeffs laggedValues steps
  forecast.map fun row => row ++ [row.sum]

/-- The memoised artifacts that `get_cached_data` (app.py) computes on its
first successful run: the index frame's raw and scaled composites, the
forecast frame's `Composite_Index` column, the impulse-response tensor of
the fitted VAR, the `BKT_` bucket columns, the configured weights map
`{f"BKT_{k}": weight}` and the configured rescale window. -/
structure PipelineData where
  historyRaw : List ℚ
  historyScaled : List (Option ℚ)
  forecastRaw : List ℚ
  orthIrfs : List (List (List ℚ))
  bucketCols : List PyStr
  weights : List (PyStr × ℚ)
  windowMonths : Nat

/-- `get_cached_data` (app.py): the `try` body (building the index and
fitting the VAR, effects outside this embedding) either yields the cached
artifacts or raises; the `except` clause prints the error and returns
`(pd.DataFrame(), None, None)` — the empty placeholder, never a re-raise. -/
def get_cached_data (buildFit : Except String PipelineData) : Option PipelineData :=
  match buildFit with
  | .ok d => some d
  | .error _ => none

/-- The fields of `generate_dashboard_data`'s returned dictionary that the
core computes (plots and narrative text are display-only): `latest_val`,
`fc_val`, the baseline forecast series and the scenario series.  The
failure placeholder `{"latest_val": 0, "fc_val": 0, "plots": {},
"descriptions": {}}` has no forecast entries at all (`none`). -/
structure DashData where
  latestVal : Option ℚ
  fcVal : Option ℚ
  forecast : Option (List (Option ℚ))
  scenario : Option (List (Option ℚ))
deriving DecidableEq

/-- Last element of a series of possibly-NaN values (`iloc[-1]`). -/
def lastVal (l : List (Option ℚ)) : Option ℚ := l.getD (l.length - 1) none

/-- `generate_dashboard_data(rate_change, confidence_shock,
volatility_shock)` from app.py (the computed values; plots, bands and the
AI overlay are display-only and out of this embedding): on an empty cache
return the placeholder; otherwise rescale the concatenated raw composite
with `scale_0_100`, slice the last 12 values as the baseline forecast, map
the dials to shocks with `apply_simulation_logic` and add the propagated
impact with `calculate_scenario_forecast`. -/
def generate_dashboard_data (buildFit : Except String PipelineData)
    (rate conf vol : DialValue) : DashData :=
  match get_cached_data buildFit with
  | none => { latestVal := some 0, fcVal := some 0, forecast := none, scenario := none }
  | some d =>
    let fcForecast := baselineForecast d.historyRaw d.forecastRaw d.windowMonths
    let shocks := shocksList (apply_simulation_logic rate conf vol)
    let scenario :=
      calculate_scenario_forecast d.orthIrfs fcForecast shocks d.bucketCols d.weights
    { latestVal := lastVal d.historyScaled
      fcVal := lastVal fcForecast
      forecast := some fcForecast
      scenario := some scenario }

/-- A shortest raw composite on which the rolling rescale produces a
defined value: 59 zeros followed by a single one (60 observations, so the
`min_periods=60` warm-up is exactly met at the last index). -/
def warmupSeries : List ℚ := List.replicate 59 0 ++ [1]

/-- A 12-entry forecast segment of ones, used to exhibit that rescaling
the forecast segment on its own (12 < 60 observations) yields no defined
value at all. -/
def onesForecast : List ℚ := List.replicate 12 1

/-  ------------------------------------------------------------------
    Theorems.
    ------------------------------------------------------------------ -/

theorem foldl_min_le_init (l : List ℚ) (a : ℚ) : l.foldl min a ≤ a := by
  induction l generalizing a with
  | nil => exact le_refl a
  | cons c t ih => exact le_trans (ih (min a c)) (min_le_left a c)

theorem foldl_min_le_mem (l : List ℚ) (a : ℚ) (b : ℚ) (hb : b ∈ l) :
    l.foldl min a ≤ b := by
  induction l generalizing a with
  | nil => cases hb
  | cons c t ih =>
    rcases List.mem_cons.1 hb with h | h
    · subst h
      exact le_trans (foldl_min_le_init t (min a b)) (min_le_right a b)
    · exact ih (min a c) h

theorem le_foldl_max_init (l : List ℚ) (a : ℚ) : a ≤ l.foldl max a := by
  induction l generalizing a with
  | nil => exact le_refl a
  | cons c t ih => exact le_trans (le_max_left a c) (ih (max a c))

theorem le_foldl_max_mem (l : List ℚ) (a : ℚ) (b : ℚ) (hb : b ∈ l) :
    b ≤ l.foldl max a := by
  induction l generalizing a with
  | nil => cases hb
  | cons c t ih =>
    rcases List.mem_cons.1 hb with h | h
    · subst h
      exact le_trans (le_max_right a b) (le_foldl_max_init t (max a b))
    · exact ih (max a c) h

/-- The current observation belongs to its own trailing rolling window. -/
theorem getD_mem_window (x : List ℚ) (w t : Nat) (ht : t < x.length)
    (hne : (lastN w (x.take (t + 1))).length ≠ 0) :
    x.getD t 0 ∈ lastN w (x.take (t + 1)) := by
  have hl'len : (x.take (t + 1)).length = t + 1 := by
    simp [List.length_take]
    omega
  have hwinlen : (lastN w (x.take (t + 1))).length =
      (x.take (t + 1)).length - ((x.take (t + 1)).length - w) := by
    rw [lastN, List.length_drop]
  set j := (lastN w (x.take (t + 1))).length - 1 with hj
  have hidx : ((x.take (t + 1)).length - w) + j = t := by omega
  have hsome : (lastN w (x.take (t + 1)))[j]? = some (x.getD t 0) := by
    rw [lastN, List.getElem?_drop, hidx, List.getElem?_take,
      if_pos (by omega : t < t + 1), List.getElem?_eq_getElem ht,
      List.getD_eq_getElem x 0 ht]
  exact List.getElem?_mem hsome

/-- C4: every defined value of the rolling 0-100 rescale lies in [0, 100],
and a value is only defined from the 60th observation on (index ≥ 59):
before the warm-up threshold the entry is missing, not clamped to 0. -/
theorem scaled_defined_in_range (x : List ℚ) (w t : Nat) (v : ℚ)
    (h : (scale_0_100 x w).getD t none = some v) :
    (0 ≤ v ∧ v ≤ 100) ∧ 59 ≤ t := by
  have ht : t < x.length := by
    by_contra hcon
    push_neg at hcon
    have hlen : (scale_0_100 x w).length ≤ t := by
      simp [scale_0_100, hcon]
    rw [List.getD_eq_getElem?_getD, List.getElem?_eq_none hlen] at h
    exact Option.noConfusion h
  have hentry : scaleEntry x w t = some v := by
    rw [scale_0_100, List.getD_eq_getElem?_getD, List.getElem?_map] at h
    rw [List.getElem?_range ht] at h
    exact h
  rw [scaleEntry] at hentry
  set win := lastN w (x.take (t + 1)) with hwin
  by_cases hshort : win.length < 60
  · rw [if_pos hshort] at hentry
    exact Option.noConfusion hentry
  rw [if_neg hshort] at hentry
  push_neg at hshort
  set m := win.foldl min (win.getD 0 0) with hm
  set M := win.foldl max (win.getD 0 0) with hM
  by_cases heq : M = m
  · rw [if_pos heq] at hentry
    exact Option.noConfusion hentry
  rw [if_neg heq] at hentry
  have hv : v = 100 * (x.getD t 0 - m) / (M - m) := (Option.some_inj.1 hentry).symm
  have hwlen : win.length ≤ t + 1 := by
    rw [hwin, lastN, List.length_drop]
    have : (x.take (t + 1)).length ≤ t + 1 := by
      simp [List.length_take]
    omega
  have htge : 59 ≤ t := by omega
  have hmem : x.getD t 0 ∈ win := by
    rw [hwin]
    exact getD_mem_window x w t ht (by rw [← hwin]; omega)
  have hlm : m ≤ x.getD t 0 := foldl_min_le_mem win (win.getD 0 0) _ hmem
  have hlM : x.getD t 0 ≤ M := le_foldl_max_mem win (win.getD 0 0) _ hmem
  have hmM : m < M := lt_of_le_of_ne (le_trans hlm hlM) (Ne.symm heq)
  have hpos : 0 < M - m := sub_pos.2 hmM
  refine ⟨⟨?_, ?_⟩, htge⟩
  · rw [hv]
    apply div_nonneg _ (le_of_lt hpos)
    nlinarith
  · rw [hv, div_le_iff₀ hpos]
    nlinarith

/-- C4 witness: on 59 zeros followed by a one, with window 60, index 59
carries the defined value 100 · (1 − 0)/(1 − 0), which the theorem places
in [0, 100] at an index past the warm-up threshold. -/
theorem scaled_defined_in_range_witness :
    (0 ≤ 100 * ((1 : ℚ) - 0) / (1 - 0) ∧ 100 * ((1 : ℚ) - 0) / (1 - 0) ≤ 100) ∧
      59 ≤ 59 :=
  scaled_defined_in_range warmupSeries 60 59 (100 * ((1 : ℚ) - 0) / (1 - 0)) rfl

/-- C3: the orchestrator's baseline forecast is the last 12 values of the
unmodified `scale_0_100` applied to the concatenation of historical raw
composite and forecast raw composite — and this differs from rescaling the
forecast segment independently of history (on a concrete 60-month history
and 12-month forecast, the independent rescale of the 12 forecast values is
everywhere undefined while the concatenated rescale is defined at the end). -/
theorem baseline_is_concat_rescale :
    (∀ (historyRaw forecastRaw : List ℚ) (windowMonths : Nat),
        baselineForecast historyRaw forecastRaw windowMonths =
          lastN 12 (scale_0_100 (historyRaw ++ forecastRaw) windowMonths)) ∧
      baselineForecast warmupSeries onesForecast 60 ≠ scale_0_100 onesForecast 60 := by
  constructor
  · intro historyRaw forecastRaw windowMonths
    rfl
  · intro heq
    have h1 : (baselineForecast warmupSeries onesForecast 60).getD 11 none =
        some (100 * ((1 : ℚ) - 0) / (1 - 0)) := rfl
    rw [heq] at h1
    have h2 : (scale_0_100 onesForecast 60).getD 11 none = none := rfl
    rw [h2] at h1
    exact Option.noConfusion h1

/-- C1: with numeric dials (rate change r in bps, confidence dial c,
volatility dial v) the five per-bucket shock magnitudes equal the fixed
linear formulas with K_rate = 15, K_conf = 20, K_vol = 15, and for every
r > 0 the Valuation magnitude (the rate impact) is ≤ 0. -/
theorem shock_mapping_formulas (r c v : ℚ) :
    (apply_simulation_logic ⟨some r, none⟩ ⟨some c, none⟩ ⟨some v, none⟩).credit =
        -(r / 100) * 15 + 0.5 * (-(v / 10) * 15) ∧
    (apply_simulation_logic ⟨some r, none⟩ ⟨some c, none⟩ ⟨some v, none⟩).sentiment =
        (c / 20) * 20 + 0.2 * (-(v / 10) * 15) ∧
    (apply_simulation_logic ⟨some r, none⟩ ⟨some c, none⟩ ⟨some v, none⟩).valuation =
        -(r / 100) * 15 ∧
    (apply_simulation_logic ⟨some r, none⟩ ⟨some c, none⟩ ⟨some v, none⟩).volatility =
        -(v / 10) * 15 ∧
    (apply_simulation_logic ⟨some r, none⟩ ⟨some c, none⟩ ⟨some v, none⟩).liquidity =
        -(r / 100) * 15 + 0.3 * ((c / 20) * 20) ∧
    (0 < r →
      (apply_simulation_logic ⟨some r, none⟩ ⟨some c, none⟩ ⟨some v, none⟩).valuation ≤ 0) := by
  simp only [apply_simulation_logic, coerceRate, coerceConfidence, coerceVolatility,
    Option.getD_some]
  refine ⟨by ring, by ring, by ring, by ring, by ring, fun hr => by nlinarith⟩

/-- C10: the dial coercions of `apply_simulation_logic` according to the
outcome of `float(x)` — a parseable value is used as its numeric value; an
unparseable rate becomes 0; an unparseable confidence string containing
`Bear` becomes −20, containing `Bull` +20, else 0; an unparseable
volatility string containing `High` becomes 10, containing `Low` −5, else
0; non-string unparseable values become 0.  The mapping is total (it never
raises): every dial combination yields a shock record. -/
theorem dial_coercions (s : PyStr) (q : ℚ) (os : Option PyStr) :
    coerceRate ⟨some q, os⟩ = q ∧
    coerceConfidence ⟨some q, os⟩ = q ∧
    coerceVolatility ⟨some q, os⟩ = q ∧
    coerceRate ⟨none, some s⟩ = 0 ∧
    coerceConfidence ⟨none, some s⟩ =
      (if pyContains s ("Bear".toList) then -20
       else if pyContains s ("Bull".toList) then 20 else 0) ∧
    coerceVolatility ⟨none, some s⟩ =
      (if pyContains s ("High".toList) then 10
       else if pyContains s ("Low".toList) then -5 else 0) ∧
    coerceRate ⟨none, none⟩ = 0 ∧
    coerceConfidence ⟨none, none⟩ = 0 ∧
    coerceVolatility ⟨none, none⟩ = 0 ∧
    (∀ d₁ d₂ d₃ : DialValue, ∃ out : Shocks, apply_simulation_logic d₁ d₂ d₃ = out) :=
  ⟨rfl, rfl, rfl, rfl, rfl, rfl, rfl, rfl, rfl, fun d₁ d₂ d₃ => ⟨_, rfl⟩⟩

/-- C7: for a negative-direction signal the output of `build_index`'s
normalisation step is −1 times the series produced by scoring the raw
series; in particular for the zscore method the clip bound is applied to
the raw-score distribution before the flip, so all normalisation
statistics come from the unflipped distribution. -/
theorem negative_direction_flips_after_scoring (sqrtFn : ℚ → ℚ) (x : List ℚ)
    (method : String) (window : NormWindow) (clipZ : ℚ) :
    processSignal sqrtFn x method window clipZ ("negative") =
      (normalize_series sqrtFn x method window clipZ).map
        (fun serN => serN.map (Option.map fun z => z * -1)) ∧
    processSignal sqrtFn x ("zscore") window clipZ ("negative") =
      .ok ((winsorize_z
              (match window with
               | .expanding => zscore_expanding sqrtFn x
               | .fixed n => zscoreRolling sqrtFn x n) clipZ).map
            (Option.map fun z => z * -1)) := by
  constructor
  · cases h : normalize_series sqrtFn x method window clipZ with
    | error e => simp [processSignal, h, Except.map]
    | ok serN => simp [processSignal, h, Except.map]
  · simp [processSignal, normalize_series]

/-- C6, counterexample: when the index build (or the VAR fit inside it)
raises — e.g. a `DataInsufficientError`-style failure on a bucket matrix
with too few rows — the orchestrator returns the placeholder
`{"latest_val": 0, "fc_val": 0, "plots": {}, "descriptions": {}}`: it has
NO forecast series at all, so in particular no flat-continuation forecast
repeating the last scaled value, and it has no degraded-diagnostics flag
(no such field exists in the returned dictionary). -/
theorem failed_build_has_no_fallback_forecast :
    (generate_dashboard_data (.error ("DataInsufficientError: too few rows"))
        ⟨some 0, none⟩ ⟨none, some ("Neutral".toList)⟩
        ⟨none, some ("Normal".toList)⟩).forecast = none ∧
    (generate_dashboard_data (.error ("DataInsufficientError: too few rows"))
        ⟨some 0, none⟩ ⟨none, some ("Neutral".toList)⟩
        ⟨none, some ("Normal".toList)⟩).latestVal = some 0 :=
  ⟨rfl, rfl⟩

/-- C6, amended: whenever the index build or the model fit fails, the
orchestrator recovers locally — `get_cached_data` swallows the exception
and `generate_dashboard_data` returns the fixed placeholder result (latest
value 0, forecast value 0, no forecast and no scenario series) — and never
re-raises to the caller; no flat-continuation forecast is produced and no
degraded flag is set. -/
theorem failed_build_returns_placeholder (e : String) (rate conf vol : DialValue) :
    generate_dashboard_data (.error e) rate conf vol =
      { latestVal := some 0, fcVal := some 0, forecast := none, scenario := none } :=
  rfl

theorem foldl_min_mem (l : List ℚ) (a : ℚ) : l.foldl min a = a ∨ l.foldl min a ∈ l := by
  induction l generalizing a with
  | nil => exact Or.inl rfl
  | cons c t ih =>
    rcases ih (min a c) with h | h
    · rcases min_choice a c with hc | hc
      · exact Or.inl (by rw [List.foldl_cons, h, hc])
      · exact Or.inr (by rw [List.foldl_cons, h, hc]; exact List.mem_cons_self c t)
    · exact Or.inr (List.mem_cons_of_mem c h)

theorem argminAIC_mem (l : List ℚ) (hne : l ≠ []) :
    l.foldl min (l.getD 0 0) ∈ l := by
  rcases foldl_min_mem l (l.getD 0 0) with h | h
  · rw [h]
    cases l with
    | nil => exact absurd rfl hne
    | cons c t => exact List.mem_cons_self c t
  · exact h

theorem argminAIC_lt_length (l : List ℚ) (hne : l ≠ []) : argminAIC l < l.length :=
  List.indexOf_lt_length.2 (argminAIC_mem l hne)

theorem argminAIC_min (l : List ℚ) (hne : l ≠ []) (i : Nat) (hi : i < l.length) :
    l.getD (argminAIC l) 0 ≤ l.getD i 0 := by
  have hmem := argminAIC_mem l hne
  have hlt := argminAIC_lt_length l hne
  have hval : l.getD (argminAIC l) 0 = l.foldl min (l.getD 0 0) := by
    rw [List.getD_eq_getElem l 0 hlt]
    exact List.getElem_indexOf hlt
  rw [hval, List.getD_eq_getElem l 0 hi]
  exact foldl_min_le_mem l (l.getD 0 0) _ (List.getElem_mem hi)

theorem varForecast_length (c : VarCoeffs) :
    ∀ (steps : Nat) (recent : List (List ℚ)), (varForecast c recent steps).length = steps := by
  intro steps
  induction steps with
  | zero => intro recent; rfl
  | succ n ih =>
    intro recent
    simp [varForecast, ih]

/-- C5: order selection evaluates the candidate orders (at most 13 of
them, orders 0 through the cap 12) and picks the order whose AIC is
smallest, so the chosen order is at most 12 and AIC-minimal; if selection
fails (`optimalLag none`), the fallback order is the fixed default 4; and
in every case the forecast is still produced — `forecast_with_var` returns
a full `steps`-row forecast for any selection outcome, so selection
failure is not fatal. -/
theorem var_order_selection (l : List ℚ) (hne : l ≠ []) (hlen : l.length ≤ 13) :
    optimalLag none = 4 ∧
    optimalLag (some l) ≤ 12 ∧
    (∀ i, i < l.length → l.getD (optimalLag (some l)) 0 ≤ l.getD i 0) ∧
    (∀ (data : List (List ℚ)) (steps : Nat) (aics : Option (List ℚ))
        (fit : Nat → VarCoeffs),
        (forecast_with_var data steps aics fit).length = steps) := by
  refine ⟨rfl, ?_, ?_, ?_⟩
  · have := argminAIC_lt_length l hne
    simp only [optimalLag]
    omega
  · intro i hi
    exact argminAIC_min l hne i hi
  · intro data steps aics fit
    simp [forecast_with_var, varForecast_length]

/-- C5 witness: on the concrete AIC table [5, 3, 7] (orders 0..2) the
selected order is 1, the minimiser; on selection failure the order is 4;
and the forecast always has `steps` rows. -/
theorem var_order_selection_witness :
    optimalLag none = 4 ∧
    optimalLag (some [(5 : ℚ), 3, 7]) ≤ 12 ∧
    (∀ i, i < ([(5 : ℚ), 3, 7] : List ℚ).length →
      ([(5 : ℚ), 3, 7] : List ℚ).getD (optimalLag (some [(5 : ℚ), 3, 7])) 0 ≤
        ([(5 : ℚ), 3, 7] : List ℚ).getD i 0) ∧
    (∀ (data : List (List ℚ)) (steps : Nat) (aics : Option (List ℚ))
        (fit : Nat → VarCoeffs),
        (forecast_with_var data steps aics fit).length = steps) :=
  var_order_selection [(5 : ℚ), 3, 7] (by decide) (by decide)

/-- C9: the forecaster is deterministic — repeated calls on the same
bucket matrix give the same output; the forecast depends on the input only
through the seed `bucket_scores.values[-optimal_lag:]`, the last `order`
rows; and the derived `Composite_Index` column appended to each forecast
row equals the row-sum of the bucket columns. -/
theorem var_forecast_deterministic (data dataB : List (List ℚ)) (steps : Nat)
    (aics : Option (List ℚ)) (fit : Nat → VarCoeffs)
    (h : lastN (optimalLag aics) dataB = lastN (optimalLag aics) data) :
    forecast_with_var data steps aics fit = forecast_with_var data steps aics fit ∧
    forecast_with_var dataB steps aics fit = forecast_with_var data steps aics fit ∧
    ∀ row ∈ forecast_with_var data steps aics fit, ∃ r : List ℚ, row = r ++ [r.sum] := by
  refine ⟨rfl, ?_, ?_⟩
  · simp only [forecast_with_var]
    rw [h]
  · intro row hrow
    simp only [forecast_with_var] at hrow
    rcases List.mem_map.1 hrow with ⟨r, _, heq⟩
    exact ⟨r, heq.symm⟩

/-- C9 witness: two concrete 1-column bucket matrices that agree on their
last 4 rows (the fallback order) produce identical 2-step forecasts, and
each forecast row carries its row-sum as the composite column. -/
theorem var_forecast_deterministic_witness :
    forecast_with_var [[(1 : ℚ)], [2], [3], [4], [5]] 2 none
        (fun p => ⟨[1], List.replicate p [[1]]⟩) =
      forecast_with_var [[(1 : ℚ)], [2], [3], [4], [5]] 2 none
        (fun p => ⟨[1], List.replicate p [[1]]⟩) ∧
    forecast_with_var [[(9 : ℚ)], [2], [3], [4], [5]] 2 none
        (fun p => ⟨[1], List.replicate p [[1]]⟩) =
      forecast_with_var [[(1 : ℚ)], [2], [3], [4], [5]] 2 none
        (fun p => ⟨[1], List.replicate p [[1]]⟩) ∧
    ∀ row ∈ forecast_with_var [[(1 : ℚ)], [2], [3], [4], [5]] 2 none
        (fun p => ⟨[1], List.replicate p [[1]]⟩), ∃ r : List ℚ, row = r ++ [r.sum] :=
  var_forecast_deterministic [[(1 : ℚ)], [2], [3], [4], [5]]
    [[(9 : ℚ)], [2], [3], [4], [5]] 2 none (fun p => ⟨[1], List.replicate p [[1]]⟩)
    (by decide)

/-- C8, amended: in `calculate_scenario_forecast` a zero-magnitude shock
is skipped entirely and a shock key matching no forecaster column after
name normalisation is skipped as well — but silently: the code keeps no
count and the per-run output carries no diagnostics record of the
unmapped condition (removing the entry changes nothing). -/
theorem zero_and_unmapped_shocks_skipped
    (orthIrfs : List (List (List ℚ))) (baseline : List (Option ℚ))
    (pre post : List (PyStr × ℚ)) (bucketOrder : List PyStr)
    (weights : List (PyStr × ℚ)) (zName uName : PyStr) (mag : ℚ)
    (hu : shockIndexOf uName bucketOrder = none) :
    calculate_scenario_forecast orthIrfs baseline (pre ++ (zName, 0) :: post)
        bucketOrder weights =
      calculate_scenario_forecast orthIrfs baseline (pre ++ post) bucketOrder weights ∧
    calculate_scenario_forecast orthIrfs baseline (pre ++ (uName, mag) :: post)
        bucketOrder weights =
      calculate_scenario_forecast orthIrfs baseline (pre ++ post) bucketOrder weights := by
  have hz : ∀ acc, shockStep orthIrfs bucketOrder weights acc (zName, 0) = acc := by
    intro acc
    simp [shockStep]
  have hum : ∀ acc, shockStep orthIrfs bucketOrder weights acc (uName, mag) = acc := by
    intro acc
    unfold shockStep
    split
    · rfl
    · rw [hu]
  constructor
  · simp [calculate_scenario_forecast, List.foldl_append, hz]
  · simp [calculate_scenario_forecast, List.foldl_append, hum]

/-- C8 witness: with the single forecaster column `bkt_credit`, the
zero-magnitude `BKT_Credit` shock and the unmapped `BKT_Junk` shock are
both skipped, leaving the scenario identical to the shockless run. -/
theorem zero_and_unmapped_shocks_skipped_witness :
    calculate_scenario_forecast [] [some 50]
        ([] ++ (("BKT_Credit".toList), (0 : ℚ)) :: []) [("bkt_credit".toList)] [] =
      calculate_scenario_forecast [] [some 50] ([] ++ []) [("bkt_credit".toList)] [] ∧
    calculate_scenario_forecast [] [some 50]
        ([] ++ (("BKT_Junk".toList), (5 : ℚ)) :: []) [("bkt_credit".toList)] [] =
      calculate_scenario_forecast [] [some 50] ([] ++ []) [("bkt_credit".toList)] [] :=
  zero_and_unmapped_shocks_skipped [] [some 50] [] [] [("bkt_credit".toList)] []
    ("BKT_Credit".toList) ("BKT_Junk".toList) 5 (by decide)

/-- C8, counterexample to the diagnostics half of the claim: a run whose
shock dictionary contains the unmapped key `BKT_Ghost` (magnitude 7)
produces exactly the same value as the run without that entry — the
unmapped-shock condition is not counted or reported anywhere in the
output, and `generate_dashboard_data`'s returned record has no
diagnostics field at all, so no per-run diagnostics record of unmapped
shocks exists. -/
theorem unmapped_shock_leaves_no_record :
    calculate_scenario_forecast [[[(1 : ℚ)]]] [some 40, some 41]
        [(("BKT_Ghost".toList), 7)] [("bkt_credit".toList)]
        [(("BKT_bkt_credit".toList), 1)] =
      calculate_scenario_forecast [[[(1 : ℚ)]]] [some 40, some 41] []
        [("bkt_credit".toList)] [(("BKT_bkt_credit".toList), 1)] :=
  rfl

theorem bucketContrib_length (orthIrfs : List (List (List ℚ)))
    (bucketOrder : List PyStr) (weights : List (PyStr × ℚ)) (mag : ℚ) (idx : Nat) :
    (bucketContrib orthIrfs bucketOrder weights mag idx).length = 13 := by
  simp [bucketContrib]

theorem shockStep_length (orthIrfs : List (List (List ℚ)))
    (bucketOrder : List PyStr) (weights : List (PyStr × ℚ)) (acc : List ℚ)
    (p : PyStr × ℚ) (hacc : acc.length = 13) :
    (shockStep orthIrfs bucketOrder weights acc p).length = 13 := by
  unfold shockStep
  split
  · exact hacc
  · split
    · exact hacc
    · simp [List.length_zipWith, bucketContrib_length, hacc]

theorem foldl_shockStep_length (orthIrfs : List (List (List ℚ)))
    (bucketOrder : List PyStr) (weights : List (PyStr × ℚ)) :
    ∀ (shocks : List (PyStr × ℚ)) (acc : List ℚ), acc.length = 13 →
      (shocks.foldl (shockStep orthIrfs bucketOrder weights) acc).length = 13 := by
  intro shocks
  induction shocks with
  | nil => intro acc hacc; exact hacc
  | cons p rest ih =>
    intro acc hacc
    rw [List.foldl_cons]
    exact ih _ (shockStep_length orthIrfs bucketOrder weights acc p hacc)

theorem getD_zipWith_add (a b : List ℚ) (j : Nat) (ha : j < a.length)
    (hb : j < b.length) :
    (List.zipWith (· + ·) a b).getD j 0 = a.getD j 0 + b.getD j 0 := by
  have hz : j < (List.zipWith (· + ·) a b).length := by
    simp [List.length_zipWith]
    omega
  rw [List.getD_eq_getElem _ _ hz, List.getD_eq_getElem a 0 ha,
    List.getD_eq_getElem b 0 hb]
  exact List.getElem_zipWith ..

theorem bucketContrib_getD (orthIrfs : List (List (List ℚ)))
    (bucketOrder : List PyStr) (weights : List (PyStr × ℚ)) (mag : ℚ) (idx : Nat)
    (s : Nat) (hs : s < 13) :
    (bucketContrib orthIrfs bucketOrder weights mag idx).getD s 0 =
      ((List.range bucketOrder.length).map fun i =>
        irfAt orthIrfs s i idx * mag * weightOf weights (bucketOrder.getD i [])).sum := by
  rw [bucketContrib, List.getD_eq_getElem?_getD, List.getElem?_map,
    List.getElem?_range hs]
  rfl

theorem foldl_shockStep_getD (orthIrfs : List (List (List ℚ)))
    (bucketOrder : List PyStr) (weights : List (PyStr × ℚ)) :
    ∀ (shocks : List (PyStr × ℚ)) (acc : List ℚ), acc.length = 13 →
      ∀ s, s < 13 →
        (shocks.foldl (shockStep orthIrfs bucketOrder weights) acc).getD s 0 =
          acc.getD s 0 + specStepImpact orthIrfs shocks bucketOrder weights s := by
  intro shocks
  induction shocks with
  | nil =>
    intro acc _ s _
    simp [specStepImpact]
  | cons p rest ih =>
    intro acc hacc s hs
    rw [List.foldl_cons]
    by_cases hz : p.2 = 0
    · have hstep : shockStep orthIrfs bucketOrder weights acc p = acc := by
        simp [shockStep, hz]
      rw [hstep, ih acc hacc s hs]
      simp [specStepImpact, hz]
    · cases hidx : shockIndexOf p.1 bucketOrder with
      | none =>
        have hstep : shockStep orthIrfs bucketOrder weights acc p = acc := by
          unfold shockStep
          rw [if_neg hz, hidx]
        rw [hstep, ih acc hacc s hs]
        simp [specStepImpact, hz, hidx]
      | some idx =>
        have hstep : shockStep orthIrfs bucketOrder weights acc p =
            List.zipWith (· + ·) acc (bucketContrib orthIrfs bucketOrder weights p.2 idx) := by
          unfold shockStep
          rw [if_neg hz, hidx]
        have hlen2 : (List.zipWith (· + ·) acc
            (bucketContrib orthIrfs bucketOrder weights p.2 idx)).length = 13 := by
          simp [List.length_zipWith, bucketContrib_length, hacc]
        rw [hstep, ih _ hlen2 s hs,
          getD_zipWith_add acc _ s (by omega) (by rw [bucketContrib_length]; omega),
          bucketContrib_getD orthIrfs bucketOrder weights p.2 idx s hs]
        simp only [specStepImpact, List.map_cons, List.sum_cons]
        rw [if_neg hz]
        simp only [hidx]
        ring

theorem cumsumFrom_length : ∀ (l : List ℚ) (acc : ℚ), (cumsumFrom acc l).length = l.length := by
  intro l
  induction l with
  | nil => intro acc; rfl
  | cons y ys ih => intro acc; simp [cumsumFrom, ih]

theorem cumsumFrom_getD : ∀ (l : List ℚ) (acc : ℚ) (j : Nat), j < l.length →
    (cumsumFrom acc l).getD j 0 = acc + ∑ s ∈ Finset.range (j + 1), l.getD s 0 := by
  intro l
  induction l with
  | nil => intro acc j hj; cases hj
  | cons y ys ih =>
    intro acc j hj
    cases j with
    | zero =>
      simp only [cumsumFrom, List.getD_cons_zero, Nat.zero_add, Finset.sum_range_one]
    | succ j' =>
      have hj' : j' < ys.length := by
        simp only [List.length_cons] at hj
        omega
      rw [cumsumFrom]
      have hcons : ((acc + y) :: cumsumFrom (acc + y) ys).getD (j' + 1) 0 =
          (cumsumFrom (acc + y) ys).getD j' 0 := List.getD_cons_succ
      rw [hcons, ih (acc + y) j' hj',
        Finset.sum_range_succ' (fun s => (y :: ys).getD s 0) (j' + 1)]
      simp only [List.getD_cons_succ, List.getD_cons_zero]
      ring

/-- C2: each defined entry of the scenario forecast equals the scaled
baseline entry plus the propagated impact — the cumulative sum, through
step j+1, of the per-step impacts described by §4.5 (per shocked bucket
with nonzero mapped magnitude: magnitude-scaled impulse-response column,
weight-summed across responding buckets, summed across shocked buckets),
with step 0 aligned out so that forecast period j receives cumulative
step j+1; and the orchestrator feeds the *scaled* concatenated baseline
(not the raw one) into this computation. -/
theorem scenario_is_baseline_plus_cumulated_impact
    (orthIrfs : List (List (List ℚ))) (baseline : List (Option ℚ))
    (shocks : List (PyStr × ℚ)) (bucketOrder : List PyStr)
    (weights : List (PyStr × ℚ)) (j : Nat) (q : ℚ)
    (hj : j < 12) (hb : baseline.getD j none = some q) :
    (calculate_scenario_forecast orthIrfs baseline shocks bucketOrder weights).getD
        j none =
      some (q + ∑ s ∈ Finset.range (j + 2),
        specStepImpact orthIrfs shocks bucketOrder weights s) ∧
    (∀ (d : PipelineData) (rate conf vol : DialValue),
      (generate_dashboard_data (.ok d) rate conf vol).scenario =
        some (calculate_scenario_forecast d.orthIrfs
          (baselineForecast d.historyRaw d.forecastRaw d.windowMonths)
          (shocksList (apply_simulation_logic rate conf vol)) d.bucketCols d.weights)) := by
  constructor
  · have hjb : j < baseline.length := by
      by_contra hcon
      push_neg at hcon
      rw [List.getD_eq_getElem?_getD, List.getElem?_eq_none hcon] at hb
      exact Option.noConfusion hb
    have hTlen : (shocks.foldl (shockStep orthIrfs bucketOrder weights)
        (List.replicate 13 0)).length = 13 :=
      foldl_shockStep_length orthIrfs bucketOrder weights shocks _ (by simp)
    have hCl : (cumsum (shocks.foldl (shockStep orthIrfs bucketOrder weights)
        (List.replicate 13 0))).length = 13 := by
      rw [cumsum, cumsumFrom_length, hTlen]
    have hmain : calculate_scenario_forecast orthIrfs baseline shocks bucketOrder
        weights =
        List.zipWith (fun b a => b.map (· + a)) baseline
          (((cumsum (shocks.foldl (shockStep orthIrfs bucketOrder weights)
            (List.replicate 13 0))).drop 1).take 12) := by
      simp only [calculate_scenario_forecast]
      rw [if_pos (by rw [hCl]; omega)]
    rw [hmain]
    set T := shocks.foldl (shockStep orthIrfs bucketOrder weights)
      (List.replicate 13 0) with hT
    set C := cumsum T with hC
    set A := (C.drop 1).take 12 with hAdef
    have halen : A.length = 12 := by
      rw [hAdef, List.length_take, List.length_drop, hCl]
      omega
    have hA : j < A.length := by omega
    have hjz : j < (List.zipWith (fun b a => b.map (· + a)) baseline A).length := by
      rw [List.length_zipWith]
      omega
    have h2 : A.getD j 0 = C.getD (1 + j) 0 := by
      rw [hAdef, List.getD_eq_getElem?_getD, List.getElem?_take, if_pos hj,
        List.getElem?_drop, ← List.getD_eq_getElem?_getD]
    have h3 : C.getD (1 + j) 0 = 0 + ∑ s ∈ Finset.range (1 + j + 1), T.getD s 0 := by
      rw [hC, cumsum]
      exact cumsumFrom_getD T 0 (1 + j) (by rw [hTlen]; omega)
    have h4 : ∀ s, s < 13 →
        T.getD s 0 = specStepImpact orthIrfs shocks bucketOrder weights s := by
      intro s hs
      rw [hT, foldl_shockStep_getD orthIrfs bucketOrder weights shocks _ (by simp) s hs]
      have hrep : (List.replicate 13 (0 : ℚ)).getD s 0 = 0 := by
        rw [List.getD_eq_getElem _ _ (by simpa using hs)]
        exact List.getElem_replicate ..
      rw [hrep, zero_add]
    have h5 : ∑ s ∈ Finset.range (1 + j + 1), T.getD s 0 =
        ∑ s ∈ Finset.range (j + 2), specStepImpact orthIrfs shocks bucketOrder weights s := by
      have hidx : 1 + j + 1 = j + 2 := by omega
      rw [hidx]
      exact Finset.sum_congr rfl fun s hs =>
        h4 s (by have := Finset.mem_range.1 hs; omega)
    have hAval : A.getD j 0 =
        ∑ s ∈ Finset.range (j + 2), specStepImpact orthIrfs shocks bucketOrder weights s := by
      rw [h2, h3, h5, zero_add]
    have h1 : (List.zipWith (fun b a => b.map (· + a)) baseline A).getD j none =
        (baseline.getD j none).map (· + A.getD j 0) := by
      rw [List.getD_eq_getElem _ _ hjz, List.getD_eq_getElem baseline none hjb,
        List.getD_eq_getElem A 0 hA]
      exact List.getElem_zipWith ..
    rw [h1, hb, hAval]
    rfl
  · intro d rate conf vol
    rfl

/-- C2 witness: a defined baseline entry (50 at index 0) with an empty
shock dictionary yields the baseline value plus the (empty) cumulated
impact through step 1, and the orchestrator wiring equality holds. -/
theorem scenario_is_baseline_plus_cumulated_impact_witness :
    (calculate_scenario_forecast [] [some 50] [] [] []).getD 0 none =
      some (50 + ∑ s ∈ Finset.range (0 + 2), specStepImpact [] [] [] [] s) ∧
    (∀ (d : PipelineData) (rate conf vol : DialValue),
      (generate_dashboard_data (.ok d) rate conf vol).scenario =
        some (calculate_scenario_forecast d.orthIrfs
          (baselineForecast d.historyRaw d.forecastRaw d.windowMonths)
          (shocksList (apply_simulation_logic rate conf vol)) d.bucketCols d.weights)) :=
  scenario_is_baseline_plus_cumulated_impact [] [some 50] [] [] [] 0 50 (by decide) rfl

end MAHF
